import Mathlib

/-!
# Verification of the libp2p pubsub router base (js-libp2p-pubsub)

Shallow embedding of the pubsub base protocol sources:
  * `src/message/sign.js`   — `signMessage`, `verifySignature`, `messagePublicKey`, sign prefix
  * `src/index.js`          — `PubsubBaseProtocol`: `validate`, `_buildMessage`, `start`,
                              `stop`, `_addPeer`
  * `peerStreams.js`        — `PeerStreams`: `write`, `close`

Machine bytes are modelled as `Nat`; byte strings as `List Nat`.  Fallible
operations return `Except`.  External collaborators (the protobuf message
codec, the key backend of `peer-id` / `libp2p-crypto`) are not part of the
sources and are modelled from the spec, marked `Modelled from the spec:` in
their doc comments.
-/

namespace Pubsub

/-! ## Byte-level encoding primitives

Modelled from the spec: the message codec (`src/message/index.js` /
`src/message/rpc.proto`) is not among the sources.  The spec (§4.2, §6)
requires a canonical deterministic serialisation with fixed field ordering
and tag numbering, where the signature input strips the `signature` and
`key` fields.  We model a protobuf-style wire format: each field is
`tagByte := 8*tag + 2`, then the payload length as a base-128 varint, then
the payload bytes. -/

/-- Base-128 varint encoding, fuel-indexed so that it is structurally
recursive (the fuel is an upper bound on the value being encoded). -/
def encodeVarintAux : Nat → Nat → List Nat
  | 0, n => [n]
  | fuel + 1, n =>
    if n < 128 then [n]
    else (n % 128 + 128) :: encodeVarintAux fuel (n / 128)

/-- Base-128 varint encoding of a natural number (low groups first,
high bit set on every byte except the last). -/
def encodeVarint (n : Nat) : List Nat :=
  encodeVarintAux n n

/-- Varint decoder: returns the decoded value and the remaining bytes. -/
def parseVarint : List Nat → Option (Nat × List Nat)
  | [] => none
  | b :: rest =>
    if b < 128 then some (b, rest)
    else
      match parseVarint rest with
      | some (v, r) => some ((b - 128) + v * 128, r)
      | none => none

theorem parseVarint_encodeVarintAux (fuel : Nat) :
    ∀ n rest, n ≤ fuel →
      parseVarint (encodeVarintAux fuel n ++ rest) = some (n, rest) := by
  induction fuel with
  | zero =>
    intro n rest h
    interval_cases n
    simp [encodeVarintAux, parseVarint]
  | succ fuel ih =>
    intro n rest h
    by_cases hn : n < 128
    · simp [encodeVarintAux, hn, parseVarint]
    · have hdiv : n / 128 ≤ fuel := by omega
      have hrec := ih (n / 128) rest hdiv
      simp only [encodeVarintAux, hn, if_false, List.cons_append]
      have hb : ¬ (n % 128 + 128 < 128) := by omega
      simp only [parseVarint, hb, if_false, hrec]
      have : n % 128 + n / 128 * 128 = n := by omega
      simp [this]

theorem parseVarint_encodeVarint (n : Nat) (rest : List Nat) :
    parseVarint (encodeVarint n ++ rest) = some (n, rest) :=
  parseVarint_encodeVarintAux n n rest (Nat.le_refl n)

/-- Encode one length-delimited protobuf field: tag byte, varint length,
payload. -/
def encodeField (tag : Nat) (payload : List Nat) : List Nat :=
  (8 * tag + 2) :: (encodeVarint payload.length ++ payload)

/-- Decode one length-delimited field with the given tag. -/
def parseField (tag : Nat) : List Nat → Option (List Nat × List Nat)
  | [] => none
  | b :: rest =>
    if b = 8 * tag + 2 then
      match parseVarint rest with
      | some (n, r) =>
        if n ≤ r.length then some (r.take n, r.drop n) else none
      | none => none
    else none

theorem parseField_encodeField (tag : Nat) (payload rest : List Nat) :
    parseField tag (encodeField tag payload ++ rest) = some (payload, rest) := by
  simp only [encodeField, List.cons_append, List.append_assoc, parseField, if_pos rfl,
    parseVarint_encodeVarint]
  have hle : payload.length ≤ (payload ++ rest).length := by
    simp [List.length_append]
  simp [hle, List.take_left, List.drop_left]

theorem encodeField_inj {tag : Nat} {a b r₁ r₂ : List Nat}
    (h : encodeField tag a ++ r₁ = encodeField tag b ++ r₂) :
    a = b ∧ r₁ = r₂ := by
  have := congrArg (parseField tag) h
  rw [parseField_encodeField, parseField_encodeField] at this
  exact ⟨by injection this with h'; exact (Prod.mk.injEq _ _ _ _ ▸ h').1,
         by injection this with h'; exact (Prod.mk.injEq _ _ _ _ ▸ h').2⟩

/-- Bytes of a string: the code points of its characters.  Used for the
topic strings of a message and for the ASCII sign prefix. -/
def strBytes (s : String) : List Nat :=
  s.toList.map Char.toNat

theorem char_toNat_inj : Function.Injective Char.toNat := by
  intro c d h
  exact Char.ext (UInt32.ext h)

theorem strBytes_inj : Function.Injective strBytes := by
  intro s t h
  have : s.toList = t.toList :=
    (List.map_injective_iff.mpr char_toNat_inj) h
  exact String.ext (by simpa [String.toList] using this)

/-! ## The RPC message record

`InMessage` typedef of `src/index.js`: `from`, `data`, `seqno` are byte
strings, `topicIDs` a list of topic strings, `signature` and `key`
optional byte strings (absent = JS `undefined`; a present but empty
buffer is a truthy object in JS, matching `Option.isSome`). -/

structure Message where
  «from» : List Nat
  data : List Nat
  seqno : List Nat
  topicIDs : List String
  signature : Option (List Nat)
  key : Option (List Nat)
deriving DecidableEq, Repr

/-- Encoding of the repeated `topicIDs` field (tag 4), one length-delimited
field per topic, in list order. -/
def encodeTopics (ts : List String) : List Nat :=
  (ts.map fun t => encodeField 4 (strBytes t)).flatten

/-- Encoding of an optional field: protobuf omits absent fields. -/
def encodeOpt (tag : Nat) : Option (List Nat) → List Nat
  | none => []
  | some b => encodeField tag b

/-- `Message.encode`.  Modelled from the spec (§4.2, §6): canonical
deterministic serialisation with fixed field order and tags
(`from` = 1, `data` = 2, `seqno` = 3, `topicIDs` = 4 repeated,
`signature` = 5, `key` = 6), absent optional fields omitted. -/
def encodeMessage (m : Message) : List Nat :=
  encodeField 1 m.«from» ++
    (encodeField 2 m.data ++
      (encodeField 3 m.seqno ++
        (encodeTopics m.topicIDs ++
          (encodeOpt 5 m.signature ++ encodeOpt 6 m.key))))

theorem encodeTopics_inj : ∀ {ts₁ ts₂ : List String},
    encodeTopics ts₁ = encodeTopics ts₂ → ts₁ = ts₂ := by
  intro ts₁
  induction ts₁ with
  | nil =>
    intro ts₂ h
    cases ts₂ with
    | nil => rfl
    | cons b tl => simp [encodeTopics, encodeField] at h
  | cons a tl ih =>
    intro ts₂ h
    cases ts₂ with
    | nil => simp [encodeTopics, encodeField] at h
    | cons b tl₂ =>
      simp only [encodeTopics, List.map_cons, List.flatten] at h
      obtain ⟨hab, htl⟩ := encodeField_inj h
      have : a = b := strBytes_inj hab
      subst this
      have : tl = tl₂ := ih (by simpa [encodeTopics] using htl)
      rw [this]

/-- The canonical encoding is injective on messages whose `signature` and
`key` fields are absent (the shape over which signing computes bytes). -/
theorem encodeMessage_inj {m₁ m₂ : Message}
    (h₁s : m₁.signature = none) (h₁k : m₁.key = none)
    (h₂s : m₂.signature = none) (h₂k : m₂.key = none)
    (h : encodeMessage m₁ = encodeMessage m₂) : m₁ = m₂ := by
  unfold encodeMessage at h
  obtain ⟨hf, h⟩ := encodeField_inj h
  obtain ⟨hd, h⟩ := encodeField_inj h
  obtain ⟨hs, h⟩ := encodeField_inj h
  rw [h₁s, h₁k, h₂s, h₂k] at h
  simp only [encodeOpt, List.append_nil] at h
  have ht := encodeTopics_inj h
  cases m₁; cases m₂
  simp_all

/-- `SignPrefix` (`src/message/sign.js` line 5):
`Buffer.from('libp2p-pubsub:')`, the 14 ASCII bytes of the domain
separation string. -/
def signPrefixBytes : List Nat :=
  strBytes "libp2p-pubsub:"

/-! ## Key backend and peer identities

Modelled from the spec: the key backend (`libp2p-crypto`) and `peer-id`
are external collaborators (spec §1, §3 "PeerId").  We use the standard
symbolic model of an ideal signature scheme: a signature is the pair of
the signing key's public bytes and the exact bytes signed, and
verification succeeds exactly when the signature was produced over the
same bytes by the key matching the given public key.  Peer ids derived
from a public key inline the key (spec §4.3: "short keys embedded in the
id"); ids not of that shape carry no inlined key. -/

structure KeyPair where
  secret : Nat
deriving DecidableEq, Repr

/-- `peerId.pubKey.bytes`: the public key bytes of a key pair. -/
def pubKeyBytes (kp : KeyPair) : List Nat :=
  [kp.secret]

/-- `peerId.privKey.sign(bytes)` in the ideal model. -/
def cryptoSign (kp : KeyPair) (bytes : List Nat) : List Nat :=
  pubKeyBytes kp ++ bytes

/-- `pubKey.verify(bytes, signature)` in the ideal model: true exactly when
`signature` is the matching key's signature over exactly `bytes`. -/
def cryptoVerify (pub bytes sig : List Nat) : Bool :=
  sig == pub ++ bytes

/-- `PeerId.createFromPubKey(key).id`: the peer id derived from public key
bytes (inlining the key, marked with a leading 0 byte). -/
def createFromPubKey (k : List Nat) : List Nat :=
  0 :: k

/-- The public key inlined in a peer id, when the id carries one
(`PeerId.createFromBytes(from).pubKey`). -/
def inlinedPubKey : List Nat → Option (List Nat)
  | 0 :: k => some k
  | _ => none

/-! ## `src/message/sign.js` -/

/-- Errors raised by `messagePublicKey` (`src/message/sign.js` 71–91):
`ErrKeyMismatch` is `'Public Key does not match the originator'`,
`ErrNoKey` is `'Could not get the public key from the originator id'`. -/
inductive SignErr where
  | ErrKeyMismatch
  | ErrNoKey
deriving DecidableEq, Repr

/-- `messagePublicKey` (`src/message/sign.js` 71–91): if `message.key` is
present, derive a peer id from it and compare with `message.from`;
otherwise look for a key inlined in `message.from`. -/
def messagePublicKey (m : Message) : Except SignErr (List Nat) :=
  match m.key with
  | some k =>
    if createFromPubKey k = m.«from» then Except.ok k
    else Except.error SignErr.ErrKeyMismatch
  | none =>
    match inlinedPubKey m.«from» with
    | some k => Except.ok k
    | none => Except.error SignErr.ErrNoKey

/-- The message with its `signature` and `key` fields deleted
(`src/message/sign.js` 42–44). -/
def baseMessage (m : Message) : Message :=
  { m with signature := none, key := none }

/-- `signMessage` (`src/message/sign.js` 14–33).  Note the source encodes
`message` exactly as given (line 18, `Message.encode(message)`); it does
not delete `signature`/`key` before encoding. -/
def signMessage (kp : KeyPair) (m : Message) : Message :=
  let bytes := signPrefixBytes ++ encodeMessage m
  { m with
    signature := some (cryptoSign kp bytes)
    key := some (pubKeyBytes kp) }

/-- `verifySignature` (`src/message/sign.js` 40–62): strip `signature` and
`key`, rebuild the prefixed bytes, recover the public key, verify.  A
missing signature is passed to the key backend as an empty byte string
(it can never verify in the ideal model, as in reality). -/
def verifySignature (m : Message) : Except SignErr Bool :=
  let bytes := signPrefixBytes ++ encodeMessage (baseMessage m)
  match messagePublicKey m with
  | Except.error e => Except.error e
  | Except.ok pub => Except.ok (cryptoVerify pub bytes (m.signature.getD []))

/-! ## `PubsubBaseProtocol.validate` (`src/index.js` 1000–1010) -/

/-- Error codes thrown by `validate` (from `./errors`, named in
`src/index.js` 1003 and 1008). -/
inductive PubsubErr where
  | ERR_MISSING_SIGNATURE
  | ERR_INVALID_SIGNATURE
deriving DecidableEq, Repr

/-- The JS truth value of the expression `verifySignature(message)` as it
appears in `validate` (`src/index.js` 1007).  `verifySignature` is an
`async function`, and `validate` does not `await` it: the call expression
evaluates to a Promise object, which is truthy in JS no matter which
boolean it later resolves to. -/
def verifySignatureCallTruthy (_ : Message) : Bool :=
  true

/-- `validate` (`src/index.js` 1000–1010), with the `strictSigning` policy
flag of the router passed explicitly.  Faithful to the JS evaluation:
`!message.signature` is `Option.isNone` (an empty present buffer is still
a truthy object), and the guard of the `ERR_INVALID_SIGNATURE` throw
tests `!verifySignature(message)` on the un-awaited Promise. -/
def validate (strictSigning : Bool) (m : Message) : Except PubsubErr Unit :=
  if strictSigning && m.signature.isNone then
    Except.error PubsubErr.ERR_MISSING_SIGNATURE
  else if m.signature.isSome && !verifySignatureCallTruthy m then
    Except.error PubsubErr.ERR_INVALID_SIGNATURE
  else
    Except.ok ()

/-! ## `PubsubBaseProtocol._buildMessage` (`src/index.js` 1018–1025) -/

/-- A field of an outgoing message before normalisation: JS callers may
pass either a string or a byte container. -/
inductive ByteSource where
  | str (s : String)
  | raw (b : List Nat)
deriving DecidableEq, Repr

/-- Coerce a `ByteSource` to bytes. -/
def ByteSource.toBytes : ByteSource → List Nat
  | .str s => strBytes s
  | .raw b => b

/-- An outgoing message as handed to `_buildMessage`, before
normalisation. -/
structure InMessage where
  «from» : ByteSource
  data : ByteSource
  seqno : ByteSource
  topicIDs : List String
  signature : Option (List Nat)
  key : Option (List Nat)
deriving DecidableEq, Repr

/-- Modelled from the spec: `utils.normalizeOutRpcMessage` lives in
`src/utils.js`, which is not among the sources.  Per spec §4.5
(`buildMessage`) it normalises fields to their canonical encoding form,
coercing the byte fields (`from`, `data`, `seqno`) to byte containers. -/
def normalizeOutRpcMessage (m : InMessage) : InMessage :=
  { m with
    «from» := ByteSource.raw m.«from».toBytes
    data := ByteSource.raw m.data.toBytes
    seqno := ByteSource.raw m.seqno.toBytes }

/-- View an `InMessage` as the wire `Message` it denotes. -/
def InMessage.toMessage (m : InMessage) : Message :=
  ⟨m.«from».toBytes, m.data.toBytes, m.seqno.toBytes, m.topicIDs,
    m.signature, m.key⟩

/-- Re-embed a wire `Message` as an (already normalised) `InMessage`. -/
def InMessage.ofMessage (m : Message) : InMessage :=
  ⟨ByteSource.raw m.«from», ByteSource.raw m.data, ByteSource.raw m.seqno,
    m.topicIDs, m.signature, m.key⟩

/-- `_buildMessage` (`src/index.js` 1018–1025).  Note the source: it binds
`msg = utils.normalizeOutRpcMessage(message)`, signs `msg` when
`signMessages` is set, but the `else` branch returns `message` — the
original argument, not `msg`. -/
def buildMessage (signMessages : Bool) (kp : KeyPair) (message : InMessage) :
    InMessage :=
  let msg := normalizeOutRpcMessage message
  if signMessages then
    InMessage.ofMessage (signMessage kp msg.toMessage)
  else
    message

/-! ## `PeerStreams` (`peerStreams.js`)

State of one `PeerStreams` instance.  The four stream fields of the
source (`_rawOutboundStream`, `outboundStream`, `_rawInboundStream`,
`inboundStream`) are modelled by presence flags, with the outbound push
queue's pending contents kept when attached.  `closeEvents` counts the
`'close'` events the instance has emitted; `closeListeners` counts the
`'close'` listeners currently attached (the router's `once` handler). -/

structure PeerStream where
  id : String
  protocol : String
  rawOutbound : Bool
  outbound : Option (List (List Nat))
  rawInbound : Bool
  inbound : Bool
  closeEvents : Nat
  closeListeners : Nat
deriving DecidableEq, Repr

/-- The `PeerStreams` constructor (`peerStreams.js` 23–63): both stream
pairs null, no events emitted yet. -/
def newPeerStreams (id protocol : String) : PeerStream :=
  ⟨id, protocol, false, none, false, false, 0, 0⟩

/-- `isWritable` (`peerStreams.js` 79–81). -/
def PeerStream.isWritable (ps : PeerStream) : Bool :=
  ps.outbound.isSome

/-- The error thrown by `write` when there is no outbound stream
(`peerStreams.js` 93: `Error('No writable connection to ' + id)`), the
failure the spec (§4.4) names `ErrNotWritable`. -/
inductive StreamErr where
  | ErrNotWritable
deriving DecidableEq, Repr

/-- `write` (`peerStreams.js` 90–97): throw when not writable, else push
the bytes onto the outbound queue. -/
def PeerStream.write (ps : PeerStream) (data : List Nat) :
    Except StreamErr PeerStream :=
  match ps.outbound with
  | none => Except.error StreamErr.ErrNotWritable
  | some q => Except.ok { ps with outbound := some (q ++ [data]) }

/-- `close` (`peerStreams.js` 180–195), synchronous effects: end the
outbound queue if any, abort the inbound if any, null all four stream
fields, and — unconditionally, on every invocation (line 194) — emit
`'close'`.  (Ending a live outbound queue additionally schedules the
pushable's `onEnd` callback, which may emit a further `'close'`
asynchronously; that scheduling is not modelled, and is not needed
below.) -/
def PeerStream.close (ps : PeerStream) : PeerStream :=
  { ps with
    rawOutbound := false
    outbound := none
    rawInbound := false
    inbound := false
    closeEvents := ps.closeEvents + 1 }

/-! ## `PubsubBaseProtocol` lifecycle (`src/index.js` 847–890, 948–969)

Router state.  The registrar is external; its observable interactions
are the call counters (for the idempotence claims) and, for `stop`,
whether `registrar.unregister` throws — passed in as a flag.  `peers` is
the `Map` keyed by base58 id, modelled as an association list. -/

structure RouterState where
  started : Bool
  peers : List (String × PeerStream)
  registrarId : Option Nat
  handleCalls : Nat
  registerCalls : Nat
  unregisterCalls : Nat
deriving DecidableEq, Repr

/-- `Map.get` on the peers map. -/
def lookupPeer (peers : List (String × PeerStream)) (id : String) :
    Option PeerStream :=
  match peers with
  | [] => none
  | (k, ps) :: rest => if k = id then some ps else lookupPeer rest id

/-- Registrar failures surfaced by the router lifecycle. -/
inductive RegistrarErr where
  | unregisterFailed
deriving DecidableEq, Repr

/-- `start` (`src/index.js` 847–870): return at once when already started;
otherwise call `registrar.handle`, then `registrar.register` (whose
receipt is `receipt`), store the receipt and set `started`. -/
def start (receipt : Nat) (s : RouterState) : RouterState :=
  if s.started then s
  else
    { s with
      handleCalls := s.handleCalls + 1
      registerCalls := s.registerCalls + 1
      registrarId := some receipt
      started := true }

/-- `stop` (`src/index.js` 876–890): return at once when not started;
otherwise `await this.registrar.unregister(this._registrarId)` — the call
is NOT wrapped in try/catch, so when it throws the error propagates and
none of the teardown lines (closing each peer stream, replacing the
map, clearing `started`) runs.  On success every `PeerStream` in the map
has `close()` invoked and the map is replaced by an empty one.  Returns
the state paired with the propagated error, if any. -/
def stop (unregisterThrows : Bool) (s : RouterState) :
    RouterState × Option RegistrarErr :=
  if !s.started then (s, none)
  else if unregisterThrows then
    ({ s with unregisterCalls := s.unregisterCalls + 1 },
      some RegistrarErr.unregisterFailed)
  else
    ({ s with
        unregisterCalls := s.unregisterCalls + 1
        peers := []
        started := false },
      none)

/-- `_addPeer` (`src/index.js` 948–969): look the id up in the peers map;
if an entry exists return it with no change at all; otherwise construct
a fresh `PeerStreams`, store it, and attach one `once('close', …)`
listener. -/
def addPeer (s : RouterState) (id protocol : String) :
    RouterState × PeerStream :=
  match lookupPeer s.peers id with
  | some existing => (s, existing)
  | none =>
    let ps : PeerStream := { newPeerStreams id protocol with closeListeners := 1 }
    ({ s with peers := s.peers ++ [(id, ps)] }, ps)

/-! ## Concrete fixtures used by witnesses and counterexamples -/

/-- A concrete key pair. -/
def kp0 : KeyPair := ⟨5⟩

/-- A concrete valid unsigned message originating from `kp0`
(`from = createFromPubKey (pubKeyBytes kp0)`). -/
def msgNoSig : Message :=
  ⟨[0, 5], [104, 105], [1, 2], ["t"], none, none⟩

/-- `msgNoSig` carrying a signature that the key backend never produced. -/
def msgBadSig : Message :=
  { msgNoSig with signature := some [99], key := some [5] }

/-- `msgNoSig` already carrying a (stale) signature field. -/
def msgWithSig : Message :=
  { msgNoSig with signature := some [7] }

/-- A signed `msgNoSig` whose `from` was mutated after signing. -/
def msgFromMutated : Message :=
  { signMessage kp0 msgNoSig with «from» := [9] }

/-- A started router holding one peer. -/
def startedState : RouterState :=
  { started := true
    peers := [("QmA", newPeerStreams "QmA" "/pubsub/1.0.0")]
    registrarId := some 1
    handleCalls := 1
    registerCalls := 1
    unregisterCalls := 0 }

/-- A freshly constructed router. -/
def freshState : RouterState :=
  ⟨false, [], none, 0, 0, 0⟩

/-- A fresh `PeerStreams` instance. -/
def freshPeer : PeerStream :=
  newPeerStreams "QmPeerA" "/pubsub/1.0.0"

/-- An outgoing message whose `data` field is a string, so that
normalisation changes it. -/
def strMsg : InMessage :=
  ⟨ByteSource.raw [0, 5], ByteSource.str "hi", ByteSource.raw [1], ["t"],
    none, none⟩

/-! ## Claims -/

/-- C1: the claim says that for a message carrying a signature, `validate`
fails with `ErrInvalidSignature` when verification returns false.  The
code cannot do this: `validate` (`src/index.js` 1007) tests
`!verifySignature(message)` without awaiting the async call, so the test
is on a truthy Promise object and the `ERR_INVALID_SIGNATURE` throw is
unreachable.  `msgBadSig` carries a signature the repository's own
`verifySignature` rejects, yet `validate` succeeds under either signing
policy.  (The "verification true ⇒ success" half of the claim does
hold.) -/
theorem validate_invalid_signature_unreachable :
    (∀ (strict : Bool) (m : Message),
      validate strict m ≠ Except.error PubsubErr.ERR_INVALID_SIGNATURE)
    ∧ verifySignature msgBadSig = Except.ok false
    ∧ validate true msgBadSig = Except.ok ()
    ∧ validate false msgBadSig = Except.ok () := by
  refine ⟨?_, rfl, rfl, rfl⟩
  intro strict m
  cases strict <;> cases hs : m.signature <;>
    simp [validate, verifySignatureCallTruthy, hs]

/-- C3: `validate` fails with `ErrMissingSignature` exactly when
`strictSigning` is set and the message carries no signature; with
`strictSigning` off and no signature present it succeeds. -/
theorem validate_missing_signature_iff (strict : Bool) (m : Message) :
    (validate strict m = Except.error PubsubErr.ERR_MISSING_SIGNATURE ↔
      strict = true ∧ m.signature = none)
    ∧ (strict = false → m.signature = none → validate strict m = Except.ok ()) := by
  cases strict <;> cases hs : m.signature <;>
    simp [validate, verifySignatureCallTruthy, hs]

theorem validate_missing_signature_iff_witness :
    validate false msgNoSig = Except.ok () :=
  (validate_missing_signature_iff false msgNoSig).2 rfl rfl

/-- C5: `messagePublicKey` returns the key carried in `message.key` when
the peer id derived from it equals `message.from`, fails with
`ErrKeyMismatch` when it does not, and with `message.key` absent returns
the key inlined in `message.from` when there is one, failing with
`ErrNoKey` otherwise. -/
theorem messagePublicKey_spec (m : Message) :
    (∀ k, m.key = some k →
      (createFromPubKey k = m.«from» → messagePublicKey m = Except.ok k)
      ∧ (createFromPubKey k ≠ m.«from» →
          messagePublicKey m = Except.error SignErr.ErrKeyMismatch))
    ∧ (m.key = none →
      (∀ pk, inlinedPubKey m.«from» = some pk → messagePublicKey m = Except.ok pk)
      ∧ (inlinedPubKey m.«from» = none →
          messagePublicKey m = Except.error SignErr.ErrNoKey)) := by
  constructor
  · intro k hk
    constructor <;> intro h <;> simp [messagePublicKey, hk, h]
  · intro hk
    constructor
    · intro pk h
      simp [messagePublicKey, hk, h]
    · intro h
      simp [messagePublicKey, hk, h]

theorem messagePublicKey_spec_witness :
    messagePublicKey ⟨[0, 5], [], [], [], none, some [5]⟩ = Except.ok [5]
    ∧ messagePublicKey ⟨[9], [], [], [], none, some [5]⟩ =
        Except.error SignErr.ErrKeyMismatch
    ∧ messagePublicKey ⟨[0, 7], [], [], [], none, none⟩ = Except.ok [7]
    ∧ messagePublicKey ⟨[1], [], [], [], none, none⟩ =
        Except.error SignErr.ErrNoKey :=
  ⟨((messagePublicKey_spec _).1 [5] rfl).1 (by decide),
   ((messagePublicKey_spec _).1 [5] rfl).2 (by decide),
   ((messagePublicKey_spec _).2 rfl).1 [7] rfl,
   ((messagePublicKey_spec _).2 rfl).2 rfl⟩

theorem baseMessage_signMessage (kp : KeyPair) (m : Message)
    (h1 : m.signature = none) (h2 : m.key = none) :
    baseMessage (signMessage kp m) = m := by
  cases m
  simp_all [baseMessage, signMessage]

/-- C2 (amended): signing then verifying yields true for a valid pair
(`m` unsigned, `from` the id of the key); mutating `data`, `seqno` or
`topicIDs` (including mere reordering) between sign and verify yields
false; but mutating `from` makes `verify` fail with the key-mismatch
error rather than return false. -/
theorem sign_then_verify (kp : KeyPair) (m : Message)
    (h1 : m.signature = none) (h2 : m.key = none)
    (h3 : m.«from» = createFromPubKey (pubKeyBytes kp)) :
    verifySignature (signMessage kp m) = Except.ok true
    ∧ (∀ m' : Message,
        m'.«from» = m.«from» →
        m'.signature = (signMessage kp m).signature →
        m'.key = (signMessage kp m).key →
        m' ≠ signMessage kp m →
        verifySignature m' = Except.ok false)
    ∧ (∀ m' : Message,
        m'.key = (signMessage kp m).key →
        m'.«from» ≠ m.«from» →
        verifySignature m' = Except.error SignErr.ErrKeyMismatch) := by
  have hbase := baseMessage_signMessage kp m h1 h2
  refine ⟨?_, ?_, ?_⟩
  · have hmpk : messagePublicKey (signMessage kp m) =
        Except.ok (pubKeyBytes kp) := by
      simp [messagePublicKey, signMessage, ← h3]
    have hsig : (signMessage kp m).signature =
        some (cryptoSign kp (signPrefixBytes ++ encodeMessage m)) := by
      simp [signMessage]
    simp only [verifySignature, hbase, hmpk, hsig, Option.getD_some]
    simp [cryptoVerify, cryptoSign]
  · intro m' hf hsig hkey hne
    have hk' : m'.key = some (pubKeyBytes kp) := by
      simpa [signMessage] using hkey
    have hs' : m'.signature =
        some (cryptoSign kp (signPrefixBytes ++ encodeMessage m)) := by
      simpa [signMessage] using hsig
    have hbne : baseMessage m' ≠ m := by
      intro hEq
      apply hne
      cases m'
      cases m
      simp_all [baseMessage, signMessage]
    have henc : encodeMessage (baseMessage m') ≠ encodeMessage m := fun hEq =>
      hbne (encodeMessage_inj (by simp [baseMessage]) (by simp [baseMessage])
        h1 h2 hEq)
    have hmpk : messagePublicKey m' = Except.ok (pubKeyBytes kp) := by
      simp [messagePublicKey, hk', hf, ← h3]
    simp only [verifySignature, hmpk, hs', Option.getD_some]
    congr 1
    rw [cryptoVerify, cryptoSign, beq_eq_false_iff_ne]
    intro hEq
    apply henc
    have hEq' := List.append_cancel_left hEq
    exact (List.append_cancel_left hEq').symm
  · intro m' hkey hf
    have hk' : m'.key = some (pubKeyBytes kp) := by
      simpa [signMessage] using hkey
    have hcond : createFromPubKey (pubKeyBytes kp) ≠ m'.«from» := by
      rw [← h3]
      exact fun hEq => hf hEq.symm
    simp [verifySignature, messagePublicKey, hk', hcond]

theorem sign_then_verify_witness :
    verifySignature (signMessage kp0 msgNoSig) = Except.ok true
    ∧ verifySignature { signMessage kp0 msgNoSig with data := [7] } =
        Except.ok false
    ∧ verifySignature
        { signMessage kp0 msgNoSig with topicIDs := ["u", "t"] } =
        Except.ok false := by
  have h := sign_then_verify kp0 msgNoSig rfl rfl rfl
  refine ⟨h.1, h.2.1 _ rfl rfl rfl ?_, h.2.1 _ rfl rfl rfl ?_⟩
  · intro hEq
    have := congrArg Message.data hEq
    simp [signMessage, msgNoSig] at this
  · intro hEq
    have := congrArg Message.topicIDs hEq
    simp [signMessage, msgNoSig] at this

/-- C2 counterexample: the claim says every single-field mutation between
sign and verify makes `verify` yield false; mutating `from` instead makes
it fail with the key-mismatch error, so it does not yield false. -/
theorem verify_from_mutation_cex :
    verifySignature msgFromMutated = Except.error SignErr.ErrKeyMismatch
    ∧ verifySignature msgFromMutated ≠ Except.ok false := by
  constructor
  · rfl
  · intro h
    have h1 : verifySignature msgFromMutated =
        Except.error SignErr.ErrKeyMismatch := rfl
    rw [h1] at h
    exact Except.noConfusion h

/-- C4 (amended): for a message whose `signature` and `key` fields are
absent, `signMessage` returns a copy whose signature is the private
key's signature over `SIGN_PREFIX || encode(message without signature
and key)` and whose key is the peer's public key bytes, with
`SIGN_PREFIX` the 14 ASCII bytes of `'libp2p-pubsub:'`.  (For a message
already carrying a `signature` or `key` the code signs over the encoding
including those fields — see the counterexample.) -/
theorem signMessage_spec (kp : KeyPair) (m : Message)
    (h1 : m.signature = none) (h2 : m.key = none) :
    signMessage kp m =
      { m with
        signature := some (cryptoSign kp
          (signPrefixBytes ++ encodeMessage (baseMessage m)))
        key := some (pubKeyBytes kp) }
    ∧ signPrefixBytes =
        [108, 105, 98, 112, 50, 112, 45, 112, 117, 98, 115, 117, 98, 58]
    ∧ signPrefixBytes.length = 14 := by
  refine ⟨?_, by decide, by decide⟩
  have hb : baseMessage m = m := by
    cases m
    simp_all [baseMessage]
  rw [hb]
  rfl

theorem signMessage_spec_witness :
    signMessage kp0 msgNoSig =
      { msgNoSig with
        signature := some (cryptoSign kp0
          (signPrefixBytes ++ encodeMessage (baseMessage msgNoSig)))
        key := some (pubKeyBytes kp0) } :=
  (signMessage_spec kp0 msgNoSig rfl rfl).1

/-- C4 counterexample: the claim quantifies over every message, but for a
message that already carries a `signature` field the code
(`src/message/sign.js` 18) encodes the message as given, without
deleting `signature`/`key` first, so the produced signature is not over
the stripped encoding. -/
theorem signMessage_no_strip_cex :
    (signMessage kp0 msgWithSig).signature ≠
      some (cryptoSign kp0
        (signPrefixBytes ++ encodeMessage (baseMessage msgWithSig))) := by
  decide

/-- C6 (amended): `stop` does not wrap `registrar.unregister` in a
try/catch (`src/index.js` 882), so when it throws on a started router
the error propagates to the caller and no teardown happens: no peer
stream is closed, the peer map is unchanged, and `started` stays true. -/
theorem stop_unregister_error_propagates (s : RouterState)
    (h : s.started = true) :
    stop true s =
      ({ s with unregisterCalls := s.unregisterCalls + 1 },
        some RegistrarErr.unregisterFailed) := by
  simp [stop, h]

theorem stop_unregister_error_propagates_witness :
    stop true startedState =
      ({ startedState with
          unregisterCalls := startedState.unregisterCalls + 1 },
        some RegistrarErr.unregisterFailed) :=
  stop_unregister_error_propagates startedState rfl

/-- C6 counterexample: on a started router with one peer, an
`unregister` failure leaves the peer map and `started` untouched and
surfaces the error, contradicting the claim that the error is swallowed
and teardown (close all peers, empty map, `started := false`) still
completes. -/
theorem stop_unregister_error_cex :
    (stop true startedState).2 = some RegistrarErr.unregisterFailed
    ∧ (stop true startedState).1.started = true
    ∧ (stop true startedState).1.peers = startedState.peers := by
  exact ⟨rfl, rfl, rfl⟩

/-- C7: `start` on a started router changes nothing (so
`registrar.handle` and `registrar.register` run exactly once across
repeated starts), and `stop` on a router that is not started returns
the state unchanged without calling `registrar.unregister`. -/
theorem start_stop_idempotent (s : RouterState) (r₁ r₂ : Nat) (u : Bool)
    (h : s.started = false) :
    start r₂ (start r₁ s) = start r₁ s
    ∧ (start r₁ s).handleCalls = s.handleCalls + 1
    ∧ (start r₁ s).registerCalls = s.registerCalls + 1
    ∧ stop u s = (s, none) := by
  simp [start, stop, h]

theorem start_stop_idempotent_witness :
    start 2 (start 1 freshState) = start 1 freshState
    ∧ stop true freshState = (freshState, none) := by
  have h := start_stop_idempotent freshState 1 2 true rfl
  exact ⟨h.1, h.2.2.2⟩

/-- C8 (amended): `close` (`peerStreams.js` 194) emits `'close'`
unconditionally on every invocation: after the first `close()` the event
has been emitted once, but a further `close()` is not a no-op — it
leaves the (already nulled) stream fields unchanged yet emits `'close'`
again.  `write()` after `close()` does fail with the not-writable
error. -/
theorem close_emits_every_call (ps : PeerStream) :
    ps.close.closeEvents = ps.closeEvents + 1
    ∧ ps.close.close = { ps.close with closeEvents := ps.closeEvents + 2 }
    ∧ (∀ d, ps.close.write d = Except.error StreamErr.ErrNotWritable) := by
  refine ⟨rfl, ?_, fun d => rfl⟩
  simp [PeerStream.close]

/-- C8 counterexample: the claim says a second `close()` changes nothing
and emits no event; on a fresh stream the second `close()` yields a
different state, having emitted a second `'close'`. -/
theorem close_twice_cex :
    freshPeer.close.close ≠ freshPeer.close
    ∧ freshPeer.close.close.closeEvents = 2 := by
  exact ⟨by decide, rfl⟩

/-- C9: the claim (and spec §4.5) says `_buildMessage` returns the
normalised message when `signMessages` is false.  The code
(`src/index.js` 1023) computes the normalised `msg` and then returns
`message` — the original argument — in the `else` branch, discarding the
normalisation: on `strMsg`, whose `data` is still a string, the result
is the unnormalised input. -/
theorem buildMessage_unsigned_returns_original :
    (∀ (kp : KeyPair) (m : InMessage), buildMessage false kp m = m)
    ∧ buildMessage false kp0 strMsg = strMsg
    ∧ normalizeOutRpcMessage strMsg ≠ strMsg := by
  exact ⟨fun kp m => rfl, rfl, by decide⟩

/-- C10: `_addPeer` with a peer id already present in the peers map
returns the existing `PeerStreams` entry and leaves the router state
completely unchanged: the entry keeps its original `protocol` whatever
protocol the call passed, and no new `'close'` listener is attached. -/
theorem addPeer_existing_unchanged (s : RouterState) (id proto : String)
    (e : PeerStream) (h : lookupPeer s.peers id = some e) :
    addPeer s id proto = (s, e)
    ∧ (addPeer s id proto).2.protocol = e.protocol
    ∧ (addPeer s id proto).2.closeListeners = e.closeListeners := by
  have hEq : addPeer s id proto = (s, e) := by
    simp [addPeer, h]
  exact ⟨hEq, by rw [hEq], by rw [hEq]⟩

theorem addPeer_existing_unchanged_witness :
    addPeer startedState "QmA" "/other/2.0.0" =
      (startedState, newPeerStreams "QmA" "/pubsub/1.0.0")
    ∧ (addPeer startedState "QmA" "/other/2.0.0").2.protocol =
        "/pubsub/1.0.0" := by
  have h := addPeer_existing_unchanged startedState "QmA" "/other/2.0.0"
    (newPeerStreams "QmA" "/pubsub/1.0.0") (by decide)
  exact ⟨h.1, h.2.1⟩

end Pubsub
